import Mathlib

/-!
Verification of the friendship data-access layer
(src/server/friendship/collection.ts).

The store is a list of friendship documents together with a counter
supplying fresh identifiers; every operation of `FriendshipCollection`
is embedded as a pure function on that state, following the source
line by line.  The external pieces (the mongoose model API and the
User accessor from src/server/user/collection.ts, which is not among
the provided sources) are modelled from their documented behaviour.
-/

/-- A persisted friendship document.  The attributes are exactly the
ones written by `addOne` in collection.ts (an identifier assigned by
the store, the two party references, and `dateCreated`); timestamps
are modelled as natural numbers, and `dateCreated` is an `Option`
because a document field may be absent. -/
structure Friendship where
  _id : Nat
  userOneId : Nat
  userTwoId : Nat
  dateCreated : Option Nat
deriving DecidableEq, Repr

/-- The friendship collection of the document store: the stored
documents in natural (insertion) order, plus the next fresh
identifier. -/
structure FriendshipStore where
  docs : List Friendship
  nextId : Nat
deriving DecidableEq, Repr

/-- Well-formedness maintained by the document store: `_id` is a
unique index, and identifiers already handed out are below the fresh
counter. -/
def FriendshipStore.WF (s : FriendshipStore) : Prop :=
  (s.docs.map Friendship._id).Nodup ∧ ∀ f ∈ s.docs, f._id < s.nextId

/-- A user record, as returned by the external User accessor. -/
structure User where
  _id : Nat
  username : String
deriving DecidableEq, Repr

/-- Modelled from the spec: the external User accessor
(src/server/user/collection.ts is not among the provided sources).
Per §6, it exposes `findOneByUsername(username)`, resolving a
username to a user record with an identifier field and failing if
not found; the user table is abstracted as a lookup function and
absence is `none`. -/
def UserCollection.findOneByUsername (users : String → Option User)
    (username : String) : Option User :=
  users username

namespace FriendshipModel

/-- Result object with which the store acknowledges a delete
(mongoose `DeleteResult`). -/
structure DeleteResult where
  acknowledged : Bool
  deletedCount : Nat
deriving DecidableEq, Repr

/-- Mongoose `FriendshipModel.find(filter)`: every document matching
the filter, in natural order. -/
def find (q : Friendship → Bool) (s : FriendshipStore) : List Friendship :=
  s.docs.filter q

/-- Mongoose `FriendshipModel.findOne(filter)`: the first matching
document, or null (`none`) when none matches. -/
def findOne (q : Friendship → Bool) (s : FriendshipStore) : Option Friendship :=
  s.docs.find? q

/-- Mongoose `FriendshipModel.deleteOne(filter)`: removes the first
matching document (at most one) and resolves with a `DeleteResult`
object — the driver never resolves with null, hence the `some`. -/
def deleteOne (q : Friendship → Bool) (s : FriendshipStore) :
    Option DeleteResult × FriendshipStore :=
  (some ⟨true, if s.docs.any q then 1 else 0⟩, ⟨s.docs.eraseP q, s.nextId⟩)

/-- Mongoose `FriendshipModel.deleteMany(filter)`: removes every
matching document and resolves with a `DeleteResult` object. -/
def deleteMany (q : Friendship → Bool) (s : FriendshipStore) :
    Option DeleteResult × FriendshipStore :=
  (some ⟨true, (s.docs.filter q).length⟩,
   ⟨s.docs.filter (fun f => !q f), s.nextId⟩)

end FriendshipModel

/-- Comparison on optional timestamps used by the store's sort: a
missing value sorts below every present value (MongoDB treats a
missing sort field as null, the lowest of the values occurring
here). -/
def optLe : Option Nat → Option Nat → Bool
  | none, _ => true
  | some _, none => false
  | some a, some b => a ≤ b

/-- Descending order on documents induced by a timestamp key
(`.sort` with direction -1): `a` may come before `b` when the key of
`b` is at most the key of `a`. -/
def descRel (key : Friendship → Option Nat) (a b : Friendship) : Prop :=
  optLe (key b) (key a) = true

instance (key : Friendship → Option Nat) : DecidableRel (descRel key) :=
  fun a b => decidable_of_iff (optLe (key b) (key a) = true) Iff.rfl

instance (key : Friendship → Option Nat) : IsTotal Friendship (descRel key) := by
  constructor
  intro a b
  unfold descRel optLe
  rcases key a with _ | x <;> rcases key b with _ | y <;> simp
  exact Nat.le_total y x

instance (key : Friendship → Option Nat) : IsTrans Friendship (descRel key) := by
  constructor
  intro a b c hab hbc
  unfold descRel at *
  revert hab hbc
  generalize key a = ka
  generalize key b = kb
  generalize key c = kc
  intro hab hbc
  unfold optLe at *
  rcases ka with _ | x <;> rcases kb with _ | y <;> rcases kc with _ | z <;> simp_all
  omega

/-- The sort key appearing literally in `findAll`'s query
(`.sort` on `dateFriendshiped`, direction -1). -/
def findAllSortKey : String := "dateFriendshiped"

/-- The date attribute `addOne` actually writes on every document. -/
def addOneDateField : String := "dateCreated"

/-- The value of the field named `dateFriendshiped` on a stored
document: no document carries such an attribute (`addOne` writes
`dateCreated`), so the extraction is always absent. -/
def dateFriendshiped (_f : Friendship) : Option Nat := none

namespace FriendshipCollection

/-- A friendship document after `populate(['userOneId', 'userTwoId'])`:
the two reference paths are replaced by the referenced user records
(null, i.e. `none`, when a reference does not resolve). -/
structure PopulatedFriendship where
  _id : Nat
  userOneId : Option User
  userTwoId : Option User
  dateCreated : Option Nat
deriving DecidableEq, Repr

/-- Mongoose `populate(['userOneId', 'userTwoId'])` on a friendship
document, resolving each user reference through the user table
(`byId`). -/
def populateUsers (byId : Nat → Option User) (f : Friendship) :
    PopulatedFriendship :=
  ⟨f._id, byId f.userOneId, byId f.userTwoId, f.dateCreated⟩

/-- `addOne(userOneId, userTwoId)`: builds a document carrying the
two ids and `dateCreated := new Date()` (the clock reading `now` at
the time of the call), saves it (the store assigns the fresh
identifier and appends the document), and returns it populated on
both user paths. -/
def addOne (byId : Nat → Option User) (userOneId userTwoId : Nat)
    (now : Nat) (s : FriendshipStore) :
    PopulatedFriendship × FriendshipStore :=
  let dateCreated := some now
  let friendship : Friendship := ⟨s.nextId, userOneId, userTwoId, dateCreated⟩
  (populateUsers byId friendship, ⟨s.docs ++ [friendship], s.nextId + 1⟩)

/-- `findOne(friendshipId)`: `FriendshipModel.findOne` with the
filter matching `_id` against `friendshipId`. -/
def findOne (friendshipId : Nat) (s : FriendshipStore) : Option Friendship :=
  FriendshipModel.findOne (fun f => f._id == friendshipId) s

/-- `findAll()`: `FriendshipModel.find` with the empty filter, then
`.sort` on the field named `dateFriendshiped`, direction -1
(a stable sort, so documents with equal keys keep their natural
order). -/
def findAll (s : FriendshipStore) : List Friendship :=
  List.insertionSort (descRel dateFriendshiped)
    (FriendshipModel.find (fun _ => true) s)

/-- `findAllFriendshipsOfUser(username)`: resolves the username via
the User accessor, then queries for documents where the resolved
identifier appears as either party (the $or filter).  When the
username does not resolve, the source dereferences `user._id` on
null and the failure propagates: modelled as `none`. -/
def findAllFriendshipsOfUser (users : String → Option User)
    (username : String) (s : FriendshipStore) : Option (List Friendship) :=
  match UserCollection.findOneByUsername users username with
  | none => none
  | some user =>
      some (FriendshipModel.find
        (fun f => f.userOneId == user._id || f.userTwoId == user._id) s)

/-- `deleteOne(friendshipId)`: `FriendshipModel.deleteOne` on the
`_id` filter, returning `deletedFriendRequest !== null` together
with the updated store. -/
def deleteOne (friendshipId : Nat) (s : FriendshipStore) :
    Bool × FriendshipStore :=
  let r := FriendshipModel.deleteOne (fun f => f._id == friendshipId) s
  (r.1.isSome, r.2)

/-- `deleteAllFriendshipOfUser(username)`: resolves the username,
then issues two deletes, first of every document with the identifier
as `userOneId`, then of every document with it as `userTwoId`.  An
unresolvable username propagates the failure (`none`). -/
def deleteAllFriendshipOfUser (users : String → Option User)
    (username : String) (s : FriendshipStore) : Option FriendshipStore :=
  match UserCollection.findOneByUsername users username with
  | none => none
  | some user =>
      let s1 := (FriendshipModel.deleteMany (fun f => f.userOneId == user._id) s).2
      let s2 := (FriendshipModel.deleteMany (fun f => f.userTwoId == user._id) s1).2
      some s2

/-- Follows the spec's words (§9, Design Notes): the single-query
variant of the cascade delete, one delete of every record matching
either role (one $or query).  Stated only to be compared with
`deleteAllFriendshipOfUser`. -/
def deleteAllFriendshipOfUserSingleQuery (users : String → Option User)
    (username : String) (s : FriendshipStore) : Option FriendshipStore :=
  match UserCollection.findOneByUsername users username with
  | none => none
  | some user =>
      some (FriendshipModel.deleteMany
        (fun f => f.userOneId == user._id || f.userTwoId == user._id) s).2

end FriendshipCollection

/-- Follows the spec's words (§8, last sort property): `findAll` with
the ordering field corrected to the attribute the documents actually
carry (`dateCreated`).  Stated only to be compared with
`FriendshipCollection.findAll`. -/
def FriendshipCollection.findAllCorrected (s : FriendshipStore) : List Friendship :=
  List.insertionSort (descRel (fun f => f.dateCreated))
    (FriendshipModel.find (fun _ => true) s)

/-- Concrete user records, user table and store used to instantiate
the theorems below on closed inputs. -/
def aliceUser : User := ⟨1, "alice"⟩

def bobUser : User := ⟨2, "bob"⟩

def demoUsers : String → Option User := fun n =>
  if n = "alice" then some aliceUser else
  if n = "bob" then some bobUser else none

def demoUserById : Nat → Option User := fun i =>
  if i = 1 then some aliceUser else
  if i = 2 then some bobUser else none

def demoStore : FriendshipStore :=
  ⟨[⟨0, 1, 2, some 5⟩, ⟨1, 2, 3, some 6⟩], 2⟩

/-! ### Helper lemmas -/

/-- In a list of documents with pairwise distinct identifiers, the
first document matching an identifier filter is any member carrying
that identifier. -/
theorem find?_eq_some_of_mem_of_nodup_ids {l : List Friendship} {i : Nat}
    {f : Friendship} (hn : (l.map Friendship._id).Nodup) (hm : f ∈ l)
    (hi : f._id = i) : l.find? (fun g => g._id == i) = some f := by
  induction l with
  | nil => cases hm
  | cons g gs ih =>
    simp only [List.map_cons, List.nodup_cons] at hn
    by_cases hg : g._id = i
    · have hfg : f = g := by
        rcases List.mem_cons.mp hm with h | h
        · exact h
        · exfalso
          apply hn.1
          rw [hg, ← hi]
          exact List.mem_map_of_mem Friendship._id h
      rw [List.find?_cons_of_pos _ (by simp [hg])]
      rw [hfg]
    · have hf : f ∈ gs := by
        rcases List.mem_cons.mp hm with h | h
        · exact absurd (h ▸ hi) hg
        · exact h
      rw [List.find?_cons_of_neg _ (by simp [hg])]
      exact ih hn.2 hf

/-- After erasing the first document matching an identifier filter
from a list with pairwise distinct identifiers, no match remains. -/
theorem find?_eraseP_eq_none {l : List Friendship} {i : Nat}
    (hn : (l.map Friendship._id).Nodup) :
    (l.eraseP (fun g => g._id == i)).find? (fun g => g._id == i) = none := by
  induction l with
  | nil => rfl
  | cons g gs ih =>
    simp only [List.map_cons, List.nodup_cons] at hn
    by_cases hg : g._id = i
    · rw [List.eraseP_cons_of_pos (by simp [hg])]
      rw [List.find?_eq_none]
      intro x hx
      simp only [beq_iff_eq]
      intro hxi
      apply hn.1
      rw [hg, ← hxi]
      exact List.mem_map_of_mem Friendship._id hx
    · rw [List.eraseP_cons_of_neg (by simp [hg])]
      rw [List.find?_cons_of_neg _ (by simp [hg])]
      exact ih hn.2

/-! ### Claims -/

/-- C1: for every store state and every username that resolves to a
user id, findAllFriendshipsOfUser(username) returns exactly the
friendship records in which that user id appears as userOneId or as
userTwoId: every record where the id matches either party is
returned, and none where it matches neither. -/
theorem findAllFriendshipsOfUser_exact
    (users : String → Option User) (username : String) (user : User)
    (s : FriendshipStore) (hres : users username = some user) :
    ∃ l, FriendshipCollection.findAllFriendshipsOfUser users username s = some l ∧
      ∀ f, f ∈ l ↔
        f ∈ s.docs ∧ (f.userOneId = user._id ∨ f.userTwoId = user._id) := by
  unfold FriendshipCollection.findAllFriendshipsOfUser
    UserCollection.findOneByUsername
  rw [hres]
  refine ⟨_, rfl, ?_⟩
  intro f
  simp [FriendshipModel.find, List.mem_filter, and_comm]

/-- Witness for C1 at a concrete user table and store. -/
theorem findAllFriendshipsOfUser_exact_witness :
    ∃ l, FriendshipCollection.findAllFriendshipsOfUser demoUsers "alice" demoStore
        = some l ∧
      ∀ f, f ∈ l ↔
        f ∈ demoStore.docs ∧
          (f.userOneId = aliceUser._id ∨ f.userTwoId = aliceUser._id) :=
  findAllFriendshipsOfUser_exact demoUsers "alice" aliceUser demoStore (by decide)

/-- C2: addOne(userOneId, userTwoId) creates a record carrying the
two ids and a dateCreated timestamp taken at the time of the call,
persists it with exactly one insert into the store, and returns the
record with both user references populated to full user data. -/
theorem addOne_inserts_and_populates
    (byId : Nat → Option User) (u1 u2 now : Nat) (s : FriendshipStore)
    (U1 U2 : User) (h1 : byId u1 = some U1) (h2 : byId u2 = some U2) :
    (FriendshipCollection.addOne byId u1 u2 now s).2.docs
        = s.docs ++ [⟨s.nextId, u1, u2, some now⟩] ∧
    (FriendshipCollection.addOne byId u1 u2 now s).1
        = ⟨s.nextId, some U1, some U2, some now⟩ := by
  refine ⟨rfl, ?_⟩
  simp [FriendshipCollection.addOne, FriendshipCollection.populateUsers, h1, h2]

/-- Witness for C2 at a concrete user table and store. -/
theorem addOne_inserts_and_populates_witness :
    (FriendshipCollection.addOne demoUserById 1 2 7 demoStore).2.docs
        = demoStore.docs ++ [⟨demoStore.nextId, 1, 2, some 7⟩] ∧
    (FriendshipCollection.addOne demoUserById 1 2 7 demoStore).1
        = ⟨demoStore.nextId, some aliceUser, some bobUser, some 7⟩ :=
  addOne_inserts_and_populates demoUserById 1 2 7 demoStore aliceUser bobUser
    (by decide) (by decide)

/-- C3: findAll returns all records of the store, ordered descending
by the field named dateFriendshiped; that sort key does not match the
attribute addOne writes (dateCreated) and is absent from every
document, so the sort leaves the natural order unchanged, and the
descending creation-order property holds for the corrected sort key
while failing for findAll on some store. -/
theorem findAll_sortKey_mismatch :
    (∀ s : FriendshipStore,
        FriendshipCollection.findAll s = s.docs ∧
        (FriendshipCollection.findAll s).Sorted (descRel dateFriendshiped)) ∧
    (∀ f : Friendship, dateFriendshiped f = none) ∧
    findAllSortKey ≠ addOneDateField ∧
    (∀ s : FriendshipStore,
        (FriendshipCollection.findAllCorrected s).Sorted
            (descRel (fun f => f.dateCreated)) ∧
        (FriendshipCollection.findAllCorrected s).Perm s.docs) ∧
    (∃ s : FriendshipStore,
        ¬ (FriendshipCollection.findAll s).Sorted
            (descRel (fun f => f.dateCreated))) := by
  have hfind : ∀ s : FriendshipStore,
      FriendshipModel.find (fun _ => true) s = s.docs := by
    intro s
    simp [FriendshipModel.find]
  refine ⟨?_, fun f => rfl, by decide, ?_, ?_⟩
  · intro s
    have hs : s.docs.Sorted (descRel dateFriendshiped) := by
      induction s.docs with
      | nil => simp
      | cons a l ih =>
        simp [List.sorted_cons, ih, descRel, dateFriendshiped, optLe]
    have heq : FriendshipCollection.findAll s = s.docs := by
      unfold FriendshipCollection.findAll
      rw [hfind]
      exact hs.insertionSort_eq
    exact ⟨heq, heq ▸ hs⟩
  · intro s
    unfold FriendshipCollection.findAllCorrected
    rw [hfind]
    exact ⟨List.sorted_insertionSort _ _, List.perm_insertionSort _ _⟩
  · exact ⟨⟨[⟨0, 1, 2, some 0⟩, ⟨1, 1, 3, some 1⟩], 2⟩, by decide⟩

/-- C4: deleteOne removes the record carrying the given identifier
when present (the first match, there being at most one) and returns
the comparison of the store's delete-acknowledgment against null;
the acknowledgment always being non-absent, the returned boolean is
true for every input and every store, whether or not a matching
record existed. -/
theorem deleteOne_always_true (friendshipId : Nat) (s : FriendshipStore) :
    (FriendshipCollection.deleteOne friendshipId s).1 = true ∧
    (FriendshipCollection.deleteOne friendshipId s).2.docs
        = s.docs.eraseP (fun f => f._id == friendshipId) :=
  ⟨rfl, rfl⟩

/-- C5: findOne returns the record whose identifier equals the given
friendshipId when one exists in the store (identifiers being
pairwise distinct there), and null when none exists. -/
theorem findOne_found_or_none (s : FriendshipStore) (friendshipId : Nat)
    (hnodup : (s.docs.map Friendship._id).Nodup) :
    (∀ f ∈ s.docs, f._id = friendshipId →
        FriendshipCollection.findOne friendshipId s = some f) ∧
    (∀ f, FriendshipCollection.findOne friendshipId s = some f →
        f ∈ s.docs ∧ f._id = friendshipId) ∧
    ((∀ f ∈ s.docs, f._id ≠ friendshipId) →
        FriendshipCollection.findOne friendshipId s = none) := by
  unfold FriendshipCollection.findOne FriendshipModel.findOne
  refine ⟨?_, ?_, ?_⟩
  · intro f hm hi
    exact find?_eq_some_of_mem_of_nodup_ids hnodup hm hi
  · intro f hf
    refine ⟨List.mem_of_find?_eq_some hf, ?_⟩
    have := List.find?_some hf
    simpa using this
  · intro hnone
    rw [List.find?_eq_none]
    intro x hx
    simpa using hnone x hx

/-- Witness for C5 at a concrete store. -/
theorem findOne_found_or_none_witness :
    (∀ f ∈ demoStore.docs, f._id = 1 →
        FriendshipCollection.findOne 1 demoStore = some f) ∧
    (∀ f, FriendshipCollection.findOne 1 demoStore = some f →
        f ∈ demoStore.docs ∧ f._id = 1) ∧
    ((∀ f ∈ demoStore.docs, f._id ≠ 1) →
        FriendshipCollection.findOne 1 demoStore = none) :=
  findOne_found_or_none demoStore 1 (by decide)

/-- C6: addOne followed by findOne on the new record's identifier
returns a record whose userOneId and userTwoId are the two given ids
and whose dateCreated is non-null. -/
theorem addOne_then_findOne
    (byId : Nat → Option User) (u1 u2 now : Nat) (s : FriendshipStore)
    (hwf : s.WF) :
    ∃ f, FriendshipCollection.findOne
        (FriendshipCollection.addOne byId u1 u2 now s).1._id
        (FriendshipCollection.addOne byId u1 u2 now s).2 = some f ∧
      f.userOneId = u1 ∧ f.userTwoId = u2 ∧ f.dateCreated ≠ none := by
  obtain ⟨-, hub⟩ := hwf
  refine ⟨⟨s.nextId, u1, u2, some now⟩, ?_, rfl, rfl, by simp⟩
  have hid : (FriendshipCollection.addOne byId u1 u2 now s).1._id = s.nextId := rfl
  have h2 : (FriendshipCollection.addOne byId u1 u2 now s).2.docs
      = s.docs ++ [⟨s.nextId, u1, u2, some now⟩] := rfl
  unfold FriendshipCollection.findOne FriendshipModel.findOne
  rw [hid, h2, List.find?_append]
  have hnone : s.docs.find? (fun f => f._id == s.nextId) = none := by
    rw [List.find?_eq_none]
    intro x hx
    have hlt := hub x hx
    simp only [beq_iff_eq]
    omega
  rw [hnone]
  simp

/-- Witness for C6 at a concrete store. -/
theorem addOne_then_findOne_witness :
    ∃ f, FriendshipCollection.findOne
        (FriendshipCollection.addOne demoUserById 1 3 9 demoStore).1._id
        (FriendshipCollection.addOne demoUserById 1 3 9 demoStore).2 = some f ∧
      f.userOneId = 1 ∧ f.userTwoId = 3 ∧ f.dateCreated ≠ none :=
  addOne_then_findOne demoUserById 1 3 9 demoStore
    (by unfold FriendshipStore.WF; decide)

/-- C7: deleteOne followed by findOne on the same identifier yields
an absent result, identifiers being pairwise distinct in the store. -/
theorem deleteOne_then_findOne_none (s : FriendshipStore) (friendshipId : Nat)
    (hnodup : (s.docs.map Friendship._id).Nodup) :
    FriendshipCollection.findOne friendshipId
        (FriendshipCollection.deleteOne friendshipId s).2 = none := by
  unfold FriendshipCollection.findOne FriendshipModel.findOne
    FriendshipCollection.deleteOne FriendshipModel.deleteOne
  exact find?_eraseP_eq_none hnodup

/-- Witness for C7 at a concrete store. -/
theorem deleteOne_then_findOne_none_witness :
    FriendshipCollection.findOne 0
        (FriendshipCollection.deleteOne 0 demoStore).2 = none :=
  deleteOne_then_findOne_none demoStore 0 (by decide)

/-- C8: deleteAllFriendshipOfUser followed by findAllFriendshipsOfUser
on the same (resolvable) username yields the empty set: every record
in which the resolved user id appears as either party is gone. -/
theorem deleteAll_then_find_empty
    (users : String → Option User) (username : String) (user : User)
    (s : FriendshipStore) (hres : users username = some user) :
    ∃ s', FriendshipCollection.deleteAllFriendshipOfUser users username s
        = some s' ∧
      FriendshipCollection.findAllFriendshipsOfUser users username s'
        = some [] := by
  unfold FriendshipCollection.deleteAllFriendshipOfUser
    FriendshipCollection.findAllFriendshipsOfUser UserCollection.findOneByUsername
  rw [hres]
  refine ⟨_, rfl, ?_⟩
  simp only [FriendshipModel.find, FriendshipModel.deleteMany, Option.some.injEq]
  rw [List.filter_filter, List.filter_filter, List.filter_eq_nil_iff]
  intro a ha
  cases h1 : (a.userOneId == user._id) <;> cases h2 : (a.userTwoId == user._id) <;>
    simp [h1, h2]

/-- Witness for C8 at a concrete user table and store. -/
theorem deleteAll_then_find_empty_witness :
    ∃ s', FriendshipCollection.deleteAllFriendshipOfUser demoUsers "bob" demoStore
        = some s' ∧
      FriendshipCollection.findAllFriendshipsOfUser demoUsers "bob" s'
        = some [] :=
  deleteAll_then_find_empty demoUsers "bob" bobUser demoStore (by decide)

/-- C9: addOne inserts a new record without error even when a
friendship between the same pair, in either order, already exists in
the store: no uniqueness or duplicate check is performed. -/
theorem addOne_no_duplicate_check
    (byId : Nat → Option User) (u1 u2 now : Nat) (s : FriendshipStore)
    (_hdup : ∃ f ∈ s.docs, (f.userOneId = u1 ∧ f.userTwoId = u2) ∨
        (f.userOneId = u2 ∧ f.userTwoId = u1)) :
    (FriendshipCollection.addOne byId u1 u2 now s).2.docs
        = s.docs ++ [⟨s.nextId, u1, u2, some now⟩] ∧
    (FriendshipCollection.addOne byId u1 u2 now s).2.docs.length
        = s.docs.length + 1 := by
  refine ⟨rfl, ?_⟩
  show (s.docs ++ [(⟨s.nextId, u1, u2, some now⟩ : Friendship)]).length = _
  simp

/-- Witness for C9: the demo store already holds the pair (1, 2), and
addOne for the swapped pair (2, 1) still inserts. -/
theorem addOne_no_duplicate_check_witness :
    (FriendshipCollection.addOne demoUserById 2 1 11 demoStore).2.docs
        = demoStore.docs ++ [⟨demoStore.nextId, 2, 1, some 11⟩] ∧
    (FriendshipCollection.addOne demoUserById 2 1 11 demoStore).2.docs.length
        = demoStore.docs.length + 1 :=
  addOne_no_duplicate_check demoUserById 2 1 11 demoStore
    ⟨⟨0, 1, 2, some 5⟩, by decide, by decide⟩

/-- C10: on every store and every resolvable username, the two-step
delete of deleteAllFriendshipOfUser (first by userOneId, then by
userTwoId) leaves the same final state as the single $or-query
delete of every record matching either role. -/
theorem deleteAll_eq_singleQuery
    (users : String → Option User) (username : String) (user : User)
    (s : FriendshipStore) (hres : users username = some user) :
    FriendshipCollection.deleteAllFriendshipOfUser users username s
      = FriendshipCollection.deleteAllFriendshipOfUserSingleQuery users username s := by
  unfold FriendshipCollection.deleteAllFriendshipOfUser
    FriendshipCollection.deleteAllFriendshipOfUserSingleQuery
    UserCollection.findOneByUsername
  rw [hres]
  simp only [FriendshipModel.deleteMany, List.filter_filter, Option.some.injEq,
    FriendshipStore.mk.injEq]
  refine ⟨?_, trivial⟩
  apply List.filter_congr
  intro a _
  cases h1 : (a.userOneId == user._id) <;> cases h2 : (a.userTwoId == user._id) <;>
    simp [h1, h2]

/-- Witness for C10 at a concrete user table and store. -/
theorem deleteAll_eq_singleQuery_witness :
    FriendshipCollection.deleteAllFriendshipOfUser demoUsers "alice" demoStore
      = FriendshipCollection.deleteAllFriendshipOfUserSingleQuery demoUsers
          "alice" demoStore :=
  deleteAll_eq_singleQuery demoUsers "alice" aliceUser demoStore (by decide)
